import Mathlib

/-!
Verification of the real-time collaboration core of the
`online-coding-interview` repository (NestJS backend gateway +
`SessionsService` registry, HTTP rate-limit guard, and the React
`useWebSocket` client hook).

The TypeScript source is embedded shallowly:

* JavaScript `Map` objects become insertion-ordered association lists
  (`mapGet` / `mapSet` / `mapDelete` mirror `Map.get` / `Map.set` /
  `Map.delete`);
* `Date.now()` becomes an explicit `now : Int` (milliseconds) parameter;
* every `socket.emit` / `client.to(room).emit` / `server.to(room).emit`
  call becomes an `Emission` value collected in the handler's output list;
* handlers are pure state-transition functions
  `GatewayState → GatewayState × List Emission`, matching the
  single-threaded Node.js event-loop execution of each handler body.
-/

/-- Insertion-ordered association-list lookup, mirroring `Map.get`. -/
def mapGet {β : Type} : List (String × β) → String → Option β
  | [], _ => none
  | (k', v) :: rest, k => if k' = k then some v else mapGet rest k

/-- `Map.set`: replace in place if the key is present (keeping insertion
order), otherwise append at the end. -/
def mapSet {β : Type} (m : List (String × β)) (k : String) (v : β) :
    List (String × β) :=
  if (mapGet m k).isSome then
    m.map (fun p => if p.1 = k then (k, v) else p)
  else
    m ++ [(k, v)]

/-- `Map.delete`: remove the entry for the key. -/
def mapDelete {β : Type} (m : List (String × β)) (k : String) :
    List (String × β) :=
  m.filter (fun p => p.1 ≠ k)

/-- Modelled from the spec: the backend `Language` enum
(`common/enums/language.enum.ts`) is not among the provided source files;
its fixed enumerated value set is taken from the frontend
`SUPPORTED_LANGUAGES` constant (`src/utils/constants.ts`), which lists
exactly `javascript`, `typescript`, `python`.  A session's language and a
language-change payload are strings drawn from (respectively validated
against) this set, as in `Object.values(Language).includes(language)`. -/
def languageValues : List String := ["javascript", "typescript", "python"]

/-- `SessionUser` (`common/interfaces/session.interface.ts`): per-user
presence record stored in a session.  `lastSeen` is a millisecond epoch
timestamp (`Date`). -/
structure SessionUser where
  id : String
  name : String
  color : String
  lastSeen : Int
  socketId : String
deriving DecidableEq, Repr

/-- `SessionData` (`common/interfaces/session.interface.ts`): the full
per-session record held by `SessionsService.sessions`. -/
structure SessionData where
  id : String
  createdAt : Int
  language : String
  participantCount : Nat
  users : List (String × SessionUser)
  codeVersion : Int
deriving DecidableEq, Repr

/-- The public `Session` response shape (`toSessionResponse`). -/
structure Session where
  id : String
  createdAt : Int
  language : String
  participantCount : Nat
deriving DecidableEq, Repr

/-- The state of `SessionsService`: its `sessions` map. -/
abbrev Sessions := List (String × SessionData)

/-- `SessionsService.SESSION_TIMEOUT = 30 * 60 * 1000` milliseconds. -/
def SESSION_TIMEOUT : Int := 30 * 60 * 1000

/-- `SessionsService.generateUserColor`: a deterministic function of the
user id alone.  The source hashes the character codes of the id into a
hue and converts HSL to a hex string through floating-point arithmetic;
the float conversion is abstracted, keeping the property every caller
relies on: the color is a pure function of `userId`. -/
def generateUserColor (userId : String) : String :=
  "color-of-" ++ userId

/-- `SessionsService.toSessionResponse`. -/
def toSessionResponse (sd : SessionData) : Session :=
  { id := sd.id, createdAt := sd.createdAt, language := sd.language,
    participantCount := sd.participantCount }

/-- `SessionsService.createSession`.  The `uuidv4()` session id and
`new Date()` are passed explicitly. -/
def createSession (sessions : Sessions) (sessionId : String) (now : Int)
    (language : String) : Sessions × Session :=
  let sessionData : SessionData :=
    { id := sessionId, createdAt := now, language := language,
      participantCount := 0, users := [], codeVersion := 0 }
  (mapSet sessions sessionId sessionData, toSessionResponse sessionData)

/-- `SessionsService.getSession`. -/
def getSession (sessions : Sessions) (sessionId : String) : Option Session :=
  (mapGet sessions sessionId).map toSessionResponse

/-- `SessionsService.addUserToSession`. -/
def addUserToSession (sessions : Sessions) (sessionId userId userName : String)
    (socketId : String) (now : Int) : Sessions × Option SessionUser :=
  match mapGet sessions sessionId with
  | none => (sessions, none)
  | some sessionData =>
    let color := generateUserColor userId
    let user : SessionUser :=
      { id := userId, name := userName, color := color, lastSeen := now,
        socketId := socketId }
    let users' := mapSet sessionData.users userId user
    (mapSet sessions sessionId
      { sessionData with users := users', participantCount := users'.length },
     some user)

/-- `SessionsService.removeUserFromSession`. -/
def removeUserFromSession (sessions : Sessions) (sessionId userId : String) :
    Sessions × Bool :=
  match mapGet sessions sessionId with
  | none => (sessions, false)
  | some sessionData =>
    if (mapGet sessionData.users userId).isSome then
      let users' := mapDelete sessionData.users userId
      (mapSet sessions sessionId
        { sessionData with users := users', participantCount := users'.length },
       true)
    else
      (sessions, false)

/-- `SessionsService.updateUserLastSeen`. -/
def updateUserLastSeen (sessions : Sessions) (sessionId userId : String)
    (now : Int) : Sessions :=
  match mapGet sessions sessionId with
  | none => sessions
  | some sessionData =>
    match mapGet sessionData.users userId with
    | none => sessions
    | some user =>
      mapSet sessions sessionId
        { sessionData with
          users := mapSet sessionData.users userId { user with lastSeen := now } }

/-- `SessionsService.updateSessionLanguage`. -/
def updateSessionLanguage (sessions : Sessions) (sessionId language : String) :
    Sessions × Bool :=
  match mapGet sessions sessionId with
  | none => (sessions, false)
  | some sessionData =>
    (mapSet sessions sessionId { sessionData with language := language }, true)

/-- `SessionsService.incrementCodeVersion`: `-1` is the absent-session
sentinel; otherwise the stored counter is incremented and the new value
returned. -/
def incrementCodeVersion (sessions : Sessions) (sessionId : String) :
    Sessions × Int :=
  match mapGet sessions sessionId with
  | none => (sessions, -1)
  | some sessionData =>
    (mapSet sessions sessionId
      { sessionData with codeVersion := sessionData.codeVersion + 1 },
     sessionData.codeVersion + 1)

/-- `SessionsService.getSessionUsers`. -/
def getSessionUsers (sessions : Sessions) (sessionId : String) :
    List SessionUser :=
  match mapGet sessions sessionId with
  | none => []
  | some sessionData => sessionData.users.map Prod.snd

/-- `SessionsService.cleanupInactiveSessions`: delete every session whose
age strictly exceeds `SESSION_TIMEOUT` and whose `users` map is empty. -/
def cleanupInactiveSessions (sessions : Sessions) (now : Int) : Sessions :=
  sessions.filter (fun p =>
    ¬ (now - p.2.createdAt > SESSION_TIMEOUT ∧ p.2.users.length = 0))

/-- JavaScript truthiness for an optional string (`!x` is true exactly
when `x` is `undefined` or the empty string). -/
def truthy : Option String → Option String
  | none => none
  | some s => if s = "" then none else some s

/-- The error codes emitted by the gateway
(`USER_NOT_IN_SESSION`, `INVALID_SESSION`, `SESSION_NOT_FOUND`,
`INVALID_LANGUAGE`, `RATE_LIMIT_EXCEEDED`). -/
inductive ErrorCode where
  | userNotInSession
  | invalidSession
  | sessionNotFound
  | invalidLanguage
  | rateLimitExceeded
deriving DecidableEq, Repr

/-- Presence entry as serialized by `broadcastPresenceUpdate`
(`lastSeen.toISOString()` kept as the millisecond timestamp). -/
structure PresenceUser where
  id : String
  name : String
  color : String
  lastSeen : Int
deriving DecidableEq, Repr

/-- The payload of an outbound frame.  `delta` and cursor payloads are
opaque to the server and modelled as strings. -/
inductive OutPayload where
  | errorP (code : ErrorCode) (message : String)
  | codeUpdateP (delta : String) (version : Int)
  | cursorP (raw : String)
  | langP (language : String)
  | connectedP (sessionId userId : String)
  | userJoinedP (id name color : String)
  | userLeftP (reason : String)
  | presenceP (users : List PresenceUser)
deriving DecidableEq, Repr

/-- One `emit` call made by the gateway, together with its socket.io
routing: `toClient` is `client.emit` (private to one socket),
`toRoomExcept` is `client.to(room).emit` (everyone in the room except the
sender's socket), `toRoom` is `server.to(room).emit` (everyone in the
room, sender included). -/
inductive Emission where
  | toClient (socketId : String) (event : String) (payload : OutPayload)
  | toRoomExcept (room sender : String) (event : String) (payload : OutPayload)
  | toRoom (room : String) (event : String) (payload : OutPayload)
deriving DecidableEq, Repr

/-- The inbound `WebSocketMessage` envelope.  For `code-update` the
payload is `{delta, version}`; for `cursor-update` it is opaque; for
`language-changed` it is the language string.  All three payload readings
are carried so one envelope type serves every handler, as in the
TypeScript `payload: any`. -/
structure WsMessage where
  sessionId : String
  userId : String
  delta : String
  claimedVersion : Int
  rawPayload : String
  langPayload : String
  timestamp : Int
deriving DecidableEq, Repr

/-- The mutable state of `InterviewWebSocketGateway` plus the
socket.io room membership (`client.join(sessionId)`) that backs
`client.to` / `server.to` routing. -/
structure GatewayState where
  sessions : Sessions
  userSessions : List (String × String)
  socketUsers : List (String × String)
  cursorUpdateThrottle : List (String × Int)
  codeUpdateThrottle : List (String × Int)
  languageChangeThrottle : List (String × Int)
  rooms : List (String × List String)
deriving DecidableEq, Repr

/-- The sockets currently joined to a room. -/
def roomMembers (st : GatewayState) (room : String) : List String :=
  (mapGet st.rooms room).getD []

/-- `client.join(room)`. -/
def joinRoom (st : GatewayState) (room socketId : String) : GatewayState :=
  let members := roomMembers st room
  if socketId ∈ members then st
  else { st with rooms := mapSet st.rooms room (members ++ [socketId]) }

/-- The set of sockets an emission is delivered to, per socket.io
semantics, given the room membership of the state at emission time. -/
def recipients (st : GatewayState) : Emission → List String
  | .toClient socketId _ _ => [socketId]
  | .toRoomExcept room sender _ _ => (roomMembers st room).filter (· ≠ sender)
  | .toRoom room _ _ => roomMembers st room

/-- `InterviewWebSocketGateway.handleConnection`.  The handshake query
fields arrive as optional strings; the returned `Bool` is true when the
gateway called `client.disconnect()`. -/
def handleConnection (client : String)
    (sessionId? userId? userName? : Option String) (now : Int)
    (st : GatewayState) : GatewayState × List Emission × Bool :=
  match truthy sessionId?, truthy userId?, truthy userName? with
  | some sessionId, some userId, some userName =>
    match getSession st.sessions sessionId with
    | none => (st, [], true)
    | some _ =>
      let r := addUserToSession st.sessions sessionId userId userName client now
      match r.2 with
      | none => (st, [], true)
      | some user =>
        let st := { st with
          sessions := r.1,
          userSessions := mapSet st.userSessions client sessionId,
          socketUsers := mapSet st.socketUsers client userId }
        let st := joinRoom st sessionId client
        let ems : List Emission :=
          [.toClient client "connected" (.connectedP sessionId userId),
           .toRoomExcept sessionId client "user-joined"
             (.userJoinedP user.id user.name user.color),
           .toRoom sessionId "presence-update"
             (.presenceP ((getSessionUsers st.sessions sessionId).map
               (fun u => ⟨u.id, u.name, u.color, u.lastSeen⟩)))]
        (st, ems, false)
  | _, _, _ => (st, [], true)

/-- `InterviewWebSocketGateway.handleCodeUpdate`. -/
def handleCodeUpdate (client : String) (message : WsMessage) (now : Int)
    (st : GatewayState) : GatewayState × List Emission :=
  match truthy (mapGet st.userSessions client),
        truthy (mapGet st.socketUsers client) with
  | some sessionId, some userId =>
    if sessionId ≠ message.sessionId then
      (st, [.toClient client "error"
        (.errorP .invalidSession "Session ID mismatch")])
    else
      let lastUpdate := (mapGet st.codeUpdateThrottle userId).getD 0
      if now - lastUpdate < 20 then
        (st, [])
      else
        let st := { st with
          codeUpdateThrottle := mapSet st.codeUpdateThrottle userId now }
        let r := incrementCodeVersion st.sessions sessionId
        let version := r.2
        let st := { st with sessions := r.1 }
        if version = -1 then
          (st, [.toClient client "error"
            (.errorP .sessionNotFound "Session does not exist")])
        else
          let st := { st with
            sessions := updateUserLastSeen st.sessions sessionId userId now }
          (st, [.toRoomExcept sessionId client "code-update"
            (.codeUpdateP message.delta version)])
  | _, _ =>
    (st, [.toClient client "error"
      (.errorP .userNotInSession "User not connected to session")])

/-- `InterviewWebSocketGateway.handleCursorUpdate`. -/
def handleCursorUpdate (client : String) (message : WsMessage) (now : Int)
    (st : GatewayState) : GatewayState × List Emission :=
  match truthy (mapGet st.userSessions client),
        truthy (mapGet st.socketUsers client) with
  | some sessionId, some userId =>
    if sessionId ≠ message.sessionId then
      (st, [])
    else
      let lastUpdate := (mapGet st.cursorUpdateThrottle userId).getD 0
      if now - lastUpdate < 100 then
        (st, [])
      else
        let st := { st with
          cursorUpdateThrottle := mapSet st.cursorUpdateThrottle userId now }
        let st := { st with
          sessions := updateUserLastSeen st.sessions sessionId userId now }
        (st, [.toRoomExcept sessionId client "cursor-update"
          (.cursorP message.rawPayload)])
  | _, _ => (st, [])

/-- `InterviewWebSocketGateway.handleLanguageChange`. -/
def handleLanguageChange (client : String) (message : WsMessage) (now : Int)
    (st : GatewayState) : GatewayState × List Emission :=
  match truthy (mapGet st.userSessions client),
        truthy (mapGet st.socketUsers client) with
  | some sessionId, some userId =>
    if sessionId ≠ message.sessionId then
      (st, [.toClient client "error"
        (.errorP .invalidSession "Session ID mismatch")])
    else if message.langPayload ∉ languageValues then
      (st, [.toClient client "error"
        (.errorP .invalidLanguage "Unsupported language")])
    else
      let lastChange := (mapGet st.languageChangeThrottle userId).getD 0
      if now - lastChange < 5000 then
        (st, [.toClient client "error"
          (.errorP .rateLimitExceeded
            "Language changes are limited to 1 per 5 seconds")])
      else
        let st := { st with
          languageChangeThrottle := mapSet st.languageChangeThrottle userId now }
        let r := updateSessionLanguage st.sessions sessionId message.langPayload
        let updated := r.2
        let st := { st with sessions := r.1 }
        if !updated then
          (st, [.toClient client "error"
            (.errorP .sessionNotFound "Session does not exist")])
        else
          let st := { st with
            sessions := updateUserLastSeen st.sessions sessionId userId now }
          (st, [.toRoom sessionId "language-changed"
            (.langP message.langPayload)])
  | _, _ =>
    (st, [.toClient client "error"
      (.errorP .userNotInSession "User not connected to session")])

/-- Run a sequence of inbound `code-update` events
`(senderSocket, envelope, arrival time)` through the gateway, collecting
every emission in order. -/
def runCodeUpdates (evts : List (String × WsMessage × Int))
    (st : GatewayState) : GatewayState × List Emission :=
  match evts with
  | [] => (st, [])
  | (client, message, now) :: rest =>
    let r := handleCodeUpdate client message now st
    let r' := runCodeUpdates rest r.1
    (r'.1, r.2 ++ r'.2)

/-- The server-assigned `version` numbers carried by the `code-update`
broadcasts addressed to a given session's room, in emission order. -/
def codeUpdateVersionsFor (sid : String) (ems : List Emission) : List Int :=
  ems.filterMap (fun e =>
    match e with
    | .toRoomExcept room _ _ (.codeUpdateP _ v) =>
      if room = sid then some v else none
    | _ => none)

/-- The number of `code-update` broadcasts in a list of emissions. -/
def codeUpdateBroadcastCount (ems : List Emission) : Nat :=
  (ems.filter (fun e =>
    match e with
    | .toRoomExcept _ _ ev _ => ev = "code-update"
    | _ => false)).length

/-- `RECONNECTION_ATTEMPTS` (`src/utils/constants.ts`). -/
def RECONNECTION_ATTEMPTS : Nat := 5

/-- `RECONNECTION_DELAY` (`src/utils/constants.ts`), milliseconds. -/
def RECONNECTION_DELAY : Int := 1000

/-- The state held by the `useWebSocket` hook
(`src/hooks/useWebSocket.ts`): `isConnected` / `connectionError` React
state, `reconnectAttemptsRef`, and `reconnectTimeoutRef` (the delay of a
scheduled reconnect attempt, `none` when no timer is pending). -/
structure ClientState where
  isConnected : Bool
  connectionError : Option String
  reconnectAttempts : Nat
  reconnectTimer : Option Int
deriving DecidableEq, Repr

/-- The initial hook state: refs start at `0` / `null`, `isConnected`
starts `false`. -/
def initialClientState : ClientState :=
  { isConnected := false, connectionError := none, reconnectAttempts := 0,
    reconnectTimer := none }

/-- The socket events the `connect` callback registers handlers for.
The socket is created with `reconnection: false`. -/
inductive SocketEvent where
  | connectOk
  | disconnectEvt (reason : String)
  | connectError (error : String)
deriving DecidableEq, Repr

/-- The `useWebSocket.connect` handler wiring, transcribed from the
source: `connect` resets the attempt counter and clears the error;
`disconnect` only clears `isConnected` (the handler body is
`setIsConnected(false)` plus a log — it schedules nothing);
`connect_error` only records the error.  No handler ever sets
`reconnectTimeoutRef`. -/
def clientStep (s : ClientState) : SocketEvent → ClientState
  | .connectOk =>
    { s with
      isConnected := true,
      connectionError := none,
      reconnectAttempts := 0 }
  | .disconnectEvt _ => { s with isConnected := false }
  | .connectError error => { s with connectionError := some error }

/-- Run a sequence of socket events through the hook's handlers. -/
def clientRun (s : ClientState) (evts : List SocketEvent) : ClientState :=
  evts.foldl clientStep s

/-- `String.includes` via character lists: does `pat` occur as a
contiguous substring of `s`? -/
def listIncludes (pat : List Char) : List Char → Bool
  | [] => pat.isPrefixOf []
  | c :: cs => pat.isPrefixOf (c :: cs) || listIncludes pat cs

/-- `String.prototype.replace` with a plain-string pattern: replace the
first occurrence of `pat` by `rep`. -/
def replaceFirst (pat rep : List Char) : List Char → List Char
  | [] => if pat.isPrefixOf ([] : List Char) then rep else []
  | c :: cs =>
    if pat.isPrefixOf (c :: cs) then rep ++ (c :: cs).drop pat.length
    else c :: replaceFirst pat rep cs

/-- One entry of `RateLimitGuard.limits`: a request maximum and a window
in milliseconds. -/
structure RateLimitSpec where
  max : Nat
  window : Int
deriving DecidableEq, Repr

/-- The non-default entries of `RateLimitGuard.limits`, in object
insertion order: `'POST /api/sessions': 10/60s` then
`'POST /api/sessions/:sessionId/join': 20/60s`. -/
def limitEntries : List (List Char × RateLimitSpec) :=
  [("POST /api/sessions".data, ⟨10, 60000⟩),
   ("POST /api/sessions/:sessionId/join".data, ⟨20, 60000⟩)]

/-- `RateLimitGuard.limits.default`: 100 requests per 60s. -/
def defaultLimit : RateLimitSpec := ⟨100, 60000⟩

/-- The `for (const [pattern, limit] of Object.entries(this.limits))`
loop body of `RateLimitGuard.getLimit`: return the first non-default
entry whose `/api`-stripped pattern occurs inside the key, else fall
through. -/
def getLimitLoop (key : List Char) :
    List (List Char × RateLimitSpec) → RateLimitSpec
  | [] => defaultLimit
  | (pat, limit) :: rest =>
    if listIncludes (replaceFirst "/api".data [] pat) key then limit
    else getLimitLoop key rest

/-- `RateLimitGuard.getLimit`: scan the non-default patterns in
insertion order over the key `` `${method} ${path}` ``, falling back to
the default limit. -/
def getLimit (method path : List Char) : RateLimitSpec :=
  getLimitLoop (method ++ ' ' :: path) limitEntries

/-- One record of the guard's `store`: request count and window reset
time for a key. -/
structure RateRecord where
  count : Nat
  resetTime : Int
deriving DecidableEq, Repr

/-- The guard's keyed store (`ip:method path → record`), keyed here by
character lists to match `getLimit`. -/
abbrev RateStore := List (List Char × RateRecord)

/-- Association-list lookup for `RateStore` keys. -/
def storeGet : RateStore → List Char → Option RateRecord
  | [], _ => none
  | (k', v) :: rest, k => if k' = k then some v else storeGet rest k

/-- Association-list update for `RateStore` keys (`store[key] = ...`). -/
def storeSet (m : RateStore) (k : List Char) (v : RateRecord) : RateStore :=
  if (storeGet m k).isSome then
    m.map (fun p => if p.1 = k then (k, v) else p)
  else
    m ++ [(k, v)]

/-- `RateLimitGuard.canActivate`, for an already-computed key and limit:
returns the updated store and `true` when the request is allowed, or the
unchanged store and `false` when the guard throws `RATE_LIMIT_EXCEEDED`. -/
def canActivate (store : RateStore) (key : List Char) (limit : RateLimitSpec)
    (now : Int) : RateStore × Bool :=
  match storeGet store key with
  | none => (storeSet store key ⟨1, now + limit.window⟩, true)
  | some record =>
    if now > record.resetTime then
      (storeSet store key ⟨1, now + limit.window⟩, true)
    else if record.count ≥ limit.max then
      (store, false)
    else
      (storeSet store key { record with count := record.count + 1 }, true)

/-- The response shape of `SessionsService.listSessions`. -/
structure SessionList where
  sessions : List Session
  total : Nat
  limit : Nat
  offset : Nat
deriving DecidableEq, Repr

/-- `SessionsService.listSessions`: map to the public response shape and
`slice(offset, offset + limit)`. -/
def listSessions (se : Sessions) (limit offset : Nat) : SessionList :=
  { sessions := ((se.map (fun p => toSessionResponse p.2)).drop offset).take limit,
    total := se.length, limit := limit, offset := offset }

/-- The per-session bookkeeping invariant of `SessionsService`: every
stored session's `participantCount` equals the size of its `users` map. -/
def countInvariant (sessions : Sessions) : Prop :=
  ∀ p ∈ sessions, p.2.participantCount = p.2.users.length

/-- Edit-limiter bookkeeping used to bound deliveries inside a time
window `[T, T + 1000)`: either no edit has been accepted yet (`j = 0`),
or the throttle entry records the `j`-th accepted edit's time, which is
at least `T + 20 * (j - 1)` and inside the window. -/
def throttleOK (st : GatewayState) (uid : String) (T : Int) (j : Nat) : Prop :=
  j = 0 ∨ ∃ t, mapGet st.codeUpdateThrottle uid = some t ∧
    T + 20 * ((j : Int) - 1) ≤ t ∧ t < T + 1000


/-- `[c + 1, c + 2, ..., c + k]`: the strictly-increasing run of `k`
consecutive integers starting just above `c`. -/
def consecutiveFrom (c : Int) : Nat → List Int
  | 0 => []
  | k + 1 => (c + 1) :: consecutiveFrom (c + 1) k

/-- A concrete gateway state for exercising the handlers: one session
`s1` (language `javascript`, `codeVersion` 0, created at time 0) with
users `u1`, `u2` present, sockets `c1`, `c2` admitted and joined to the
`s1` room, and all throttle maps empty. -/
def exampleState : GatewayState :=
  { sessions := [("s1",
      { id := "s1", createdAt := 0, language := "javascript",
        participantCount := 2,
        users := [("u1",
          { id := "u1", name := "Alice", color := generateUserColor "u1",
            lastSeen := 0, socketId := "c1" }),
          ("u2",
          { id := "u2", name := "Bob", color := generateUserColor "u2",
            lastSeen := 0, socketId := "c2" })],
        codeVersion := 0 })],
    userSessions := [("c1", "s1"), ("c2", "s1")],
    socketUsers := [("c1", "u1"), ("c2", "u2")],
    cursorUpdateThrottle := [],
    codeUpdateThrottle := [],
    languageChangeThrottle := [],
    rooms := [("s1", ["c1", "c2"])] }

/-- A well-formed `code-update` envelope for session `s1` carrying a
client-claimed version number 99 (which the server must ignore). -/
def exampleMsg : WsMessage :=
  { sessionId := "s1", userId := "u1", delta := "d", claimedVersion := 99,
    rawPayload := "p", langPayload := "python", timestamp := 0 }

/-- The same envelope claiming a different session id than the one the
sender's connection is bound to. -/
def mismatchMsg : WsMessage :=
  { exampleMsg with sessionId := "s2" }

/-- 100 edit envelopes sent by one user at 10ms spacing: more than 50
edits inside the one-second window `[100000, 101000)`, consecutive sends
under 20ms apart. -/
def c5Trace : List (WsMessage × Int) :=
  (List.range 100).map (fun i => (exampleMsg, 100000 + 10 * (i : Int)))

/-- A three-session registry for exercising the background sweep: two
sessions created at time 0 (one empty, one with a participant) and one
empty session created at time 9999000. -/
def exampleRegistry : Sessions :=
  [("old-empty",
    { id := "old-empty", createdAt := 0, language := "javascript",
      participantCount := 0, users := [], codeVersion := 0 }),
   ("old-busy",
    { id := "old-busy", createdAt := 0, language := "python",
      participantCount := 1,
      users := [("u1",
        { id := "u1", name := "Alice", color := generateUserColor "u1",
          lastSeen := 0, socketId := "c1" })],
      codeVersion := 7 }),
   ("new-empty",
    { id := "new-empty", createdAt := 9999000, language := "typescript",
      participantCount := 0, users := [], codeVersion := 0 })]
theorem mapGet_replace_self {β : Type} (v : β) (m : List (String × β))
    (k : String) (h : (mapGet m k).isSome) :
    mapGet (m.map (fun p => if p.1 = k then (k, v) else p)) k = some v := by
  induction m with
  | nil => simp [mapGet] at h
  | cons p rest ih =>
    obtain ⟨k0, v0⟩ := p
    simp only [List.map_cons]
    by_cases hk : k0 = k
    · rw [if_pos hk]
      simp [mapGet]
    · rw [if_neg hk]
      simp only [mapGet, if_neg hk] at h ⊢
      exact ih h

theorem mapGet_replace_ne {β : Type} (v : β) (m : List (String × β))
    (k k' : String) (hne : k' ≠ k) :
    mapGet (m.map (fun p => if p.1 = k then (k, v) else p)) k' = mapGet m k' := by
  induction m with
  | nil => simp
  | cons p rest ih =>
    obtain ⟨k0, v0⟩ := p
    simp only [List.map_cons]
    by_cases hk : k0 = k
    · rw [if_pos hk]
      have hkk' : ¬ k = k' := fun h => hne h.symm
      have hk0k' : ¬ k0 = k' := by rw [hk]; exact hkk'
      simp only [mapGet, if_neg hkk', if_neg hk0k']
      exact ih
    · rw [if_neg hk]
      by_cases hk' : k0 = k'
      · simp only [mapGet, if_pos hk']
      · simp only [mapGet, if_neg hk']
        exact ih

theorem mapGet_append_single_self {β : Type} (v : β) (m : List (String × β))
    (k : String) (h : mapGet m k = none) :
    mapGet (m ++ [(k, v)]) k = some v := by
  induction m with
  | nil => simp [mapGet]
  | cons p rest ih =>
    obtain ⟨k0, v0⟩ := p
    by_cases hk : k0 = k
    · simp only [mapGet, if_pos hk] at h
      exact absurd h (by simp)
    · simp only [List.cons_append, mapGet, if_neg hk] at h ⊢
      exact ih h

theorem mapGet_append_single_ne {β : Type} (v : β) (m : List (String × β))
    (k k' : String) (hne : k' ≠ k) :
    mapGet (m ++ [(k, v)]) k' = mapGet m k' := by
  induction m with
  | nil =>
    have : ¬ k = k' := fun h => hne h.symm
    simp [mapGet, this]
  | cons p rest ih =>
    obtain ⟨k0, v0⟩ := p
    by_cases hk : k0 = k'
    · simp only [List.cons_append, mapGet, if_pos hk]
    · simp only [List.cons_append, mapGet, if_neg hk]
      exact ih

theorem mapGet_mapSet_self {β : Type} (m : List (String × β)) (k : String)
    (v : β) : mapGet (mapSet m k v) k = some v := by
  unfold mapSet
  split
  · exact mapGet_replace_self v m k (by assumption)
  · rename_i h
    refine mapGet_append_single_self v m k ?_
    cases hm : mapGet m k with
    | none => rfl
    | some w => rw [hm] at h; simp at h

theorem mapGet_mapSet_ne {β : Type} (m : List (String × β)) (k k' : String)
    (v : β) (hne : k' ≠ k) :
    mapGet (mapSet m k v) k' = mapGet m k' := by
  unfold mapSet
  split
  · exact mapGet_replace_ne v m k k' hne
  · exact mapGet_append_single_ne v m k k' hne

theorem mapGet_mem {β : Type} (m : List (String × β)) (k : String) (v : β)
    (h : mapGet m k = some v) : (k, v) ∈ m := by
  induction m with
  | nil => simp [mapGet] at h
  | cons p rest ih =>
    obtain ⟨k0, v0⟩ := p
    by_cases hk : k0 = k
    · simp only [mapGet, if_pos hk] at h
      injection h with h2
      subst hk
      subst h2
      exact List.mem_cons_self _ _
    · simp only [mapGet, if_neg hk] at h
      exact List.mem_cons_of_mem _ (ih h)

theorem length_mapSet_present {β : Type} (m : List (String × β)) (k : String)
    (v : β) (h : (mapGet m k).isSome) : (mapSet m k v).length = m.length := by
  unfold mapSet
  rw [if_pos h]
  exact List.length_map _ _

theorem mapGet_filter_none {β : Type} (m : List (String × β)) (k : String)
    (q : String × β → Bool) (h : mapGet m k = none) :
    mapGet (m.filter q) k = none := by
  induction m with
  | nil => simp [mapGet]
  | cons p rest ih =>
    obtain ⟨k0, v0⟩ := p
    by_cases hk : k0 = k
    · simp only [mapGet, if_pos hk] at h
      exact absurd h (by simp)
    · simp only [mapGet, if_neg hk] at h
      simp only [List.filter_cons]
      split
      · simp only [mapGet, if_neg hk]
        exact ih h
      · exact ih h

theorem mapGet_eq_none_of_not_mem_keys {β : Type} (m : List (String × β))
    (k : String) (h : k ∉ m.map Prod.fst) : mapGet m k = none := by
  induction m with
  | nil => rfl
  | cons p rest ih =>
    obtain ⟨k0, v0⟩ := p
    simp only [List.map_cons, List.mem_cons] at h
    push_neg at h
    have hne : ¬ k0 = k := fun he => h.1 he.symm
    simp only [mapGet, if_neg hne]
    exact ih h.2

theorem mapGet_updateUserLastSeen_proj {γ : Type} (f : SessionData → γ)
    (hf : ∀ (sd : SessionData) (us : List (String × SessionUser)),
      f { sd with users := us } = f sd)
    (se : Sessions) (s u : String) (t : Int) (sid : String) :
    Option.map f (mapGet (updateUserLastSeen se s u t) sid) =
      Option.map f (mapGet se sid) := by
  unfold updateUserLastSeen
  split
  · rfl
  · rename_i sd hs
    split
    · rfl
    · rename_i user hu
      by_cases hss : sid = s
      · subst hss
        rw [mapGet_mapSet_self, hs]
        simp [hf]
      · rw [mapGet_mapSet_ne _ _ _ _ hss]

theorem countInvariant_mapSet (se : Sessions) (k : String) (sd : SessionData)
    (hinv : countInvariant se) (hsd : sd.participantCount = sd.users.length) :
    countInvariant (mapSet se k sd) := by
  intro p hp
  unfold mapSet at hp
  split at hp
  · rcases List.mem_map.mp hp with ⟨q, hq, hqe⟩
    by_cases h : q.1 = k
    · rw [if_pos h] at hqe
      rw [← hqe]
      exact hsd
    · rw [if_neg h] at hqe
      rw [← hqe]
      exact hinv q hq
  · rcases List.mem_append.mp hp with h | h
    · exact hinv p h
    · rw [List.mem_singleton.mp h]
      exact hsd

theorem mapGet_updateUserLastSeen_codeVersion (se : Sessions) (s u : String)
    (t : Int) (sid : String) :
    Option.map SessionData.codeVersion (mapGet (updateUserLastSeen se s u t) sid) =
      Option.map SessionData.codeVersion (mapGet se sid) :=
  mapGet_updateUserLastSeen_proj SessionData.codeVersion (fun _ _ => rfl) se s u t sid

theorem mapGet_updateUserLastSeen_language (se : Sessions) (s u : String)
    (t : Int) (sid : String) :
    Option.map SessionData.language (mapGet (updateUserLastSeen se s u t) sid) =
      Option.map SessionData.language (mapGet se sid) :=
  mapGet_updateUserLastSeen_proj SessionData.language (fun _ _ => rfl) se s u t sid

theorem mapGet_cons_self {β : Type} (k : String) (v : β)
    (rest : List (String × β)) : mapGet ((k, v) :: rest) k = some v := by
  simp [mapGet]

theorem mapGet_cons_ne {β : Type} (k0 k : String) (v : β)
    (rest : List (String × β)) (hne : k0 ≠ k) :
    mapGet ((k0, v) :: rest) k = mapGet rest k := by
  simp [mapGet, hne]

theorem mapGet_cleanup (sessions : Sessions) (now : Int) (sid : String)
    (hnd : (sessions.map Prod.fst).Nodup) :
    mapGet (cleanupInactiveSessions sessions now) sid =
      (mapGet sessions sid).bind (fun sd =>
        if now - sd.createdAt > SESSION_TIMEOUT ∧ sd.users.length = 0 then none
        else some sd) := by
  induction sessions with
  | nil => rfl
  | cons p rest ih =>
    obtain ⟨k0, sd0⟩ := p
    simp only [List.map_cons, List.nodup_cons] at hnd
    simp only [cleanupInactiveSessions, List.filter_cons] at ih ⊢
    by_cases hc : now - sd0.createdAt > SESSION_TIMEOUT ∧ sd0.users.length = 0
    · rw [if_neg (by simp only [decide_eq_true_eq]; exact not_not_intro hc)]
      by_cases hk : k0 = sid
      · subst hk
        have hrest : mapGet rest k0 = none :=
          mapGet_eq_none_of_not_mem_keys _ _ hnd.1
        rw [mapGet_filter_none _ _ _ hrest, mapGet_cons_self]
        rw [Option.some_bind, if_pos hc]
      · rw [mapGet_cons_ne _ _ _ _ hk, ih hnd.2]
    · rw [if_pos (by simp only [decide_eq_true_eq]; exact hc)]
      by_cases hk : k0 = sid
      · subst hk
        rw [mapGet_cons_self, mapGet_cons_self, Option.some_bind, if_neg hc]
      · rw [mapGet_cons_ne _ _ _ _ hk, mapGet_cons_ne _ _ _ _ hk]
        exact ih hnd.2

theorem countInvariant_createSession (se : Sessions) (sid : String) (now : Int)
    (lang : String) (hinv : countInvariant se) :
    countInvariant (createSession se sid now lang).1 := by
  unfold createSession
  exact countInvariant_mapSet se sid _ hinv rfl

theorem countInvariant_addUserToSession (se : Sessions)
    (sid uid uname sock : String) (now : Int) (hinv : countInvariant se) :
    countInvariant (addUserToSession se sid uid uname sock now).1 := by
  unfold addUserToSession
  split
  · exact hinv
  · exact countInvariant_mapSet se sid _ hinv rfl

theorem countInvariant_removeUserFromSession (se : Sessions)
    (sid uid : String) (hinv : countInvariant se) :
    countInvariant (removeUserFromSession se sid uid).1 := by
  unfold removeUserFromSession
  split
  · exact hinv
  · split
    · exact countInvariant_mapSet se sid _ hinv rfl
    · exact hinv

theorem countInvariant_updateSessionLanguage (se : Sessions)
    (sid lang : String) (hinv : countInvariant se) :
    countInvariant (updateSessionLanguage se sid lang).1 := by
  unfold updateSessionLanguage
  split
  · exact hinv
  · rename_i sd hs
    exact countInvariant_mapSet se sid _ hinv (hinv (sid, sd) (mapGet_mem se sid sd hs))

theorem countInvariant_incrementCodeVersion (se : Sessions)
    (sid : String) (hinv : countInvariant se) :
    countInvariant (incrementCodeVersion se sid).1 := by
  unfold incrementCodeVersion
  split
  · exact hinv
  · rename_i sd hs
    exact countInvariant_mapSet se sid _ hinv (hinv (sid, sd) (mapGet_mem se sid sd hs))

theorem countInvariant_updateUserLastSeen (se : Sessions)
    (sid uid : String) (now : Int) (hinv : countInvariant se) :
    countInvariant (updateUserLastSeen se sid uid now) := by
  unfold updateUserLastSeen
  split
  · exact hinv
  · rename_i sd hs
    split
    · exact hinv
    · rename_i user hu
      refine countInvariant_mapSet se sid _ hinv ?_
      have hcnt := hinv (sid, sd) (mapGet_mem se sid sd hs)
      have hlen : (mapSet sd.users uid { user with lastSeen := now }).length
          = sd.users.length :=
        length_mapSet_present sd.users uid _ (by rw [hu]; rfl)
      simpa [hlen] using hcnt

theorem incrementCodeVersion_of_get_some (se : Sessions) (sid : String)
    (sd : SessionData) (h : mapGet se sid = some sd) :
    incrementCodeVersion se sid =
      (mapSet se sid { sd with codeVersion := sd.codeVersion + 1 },
       sd.codeVersion + 1) := by
  unfold incrementCodeVersion
  rw [h]

theorem incrementCodeVersion_of_get_none (se : Sessions) (sid : String)
    (h : mapGet se sid = none) :
    incrementCodeVersion se sid = (se, -1) := by
  unfold incrementCodeVersion
  rw [h]

theorem updateSessionLanguage_of_get_some (se : Sessions) (sid lang : String)
    (sd : SessionData) (h : mapGet se sid = some sd) :
    updateSessionLanguage se sid lang =
      (mapSet se sid { sd with language := lang }, true) := by
  unfold updateSessionLanguage
  rw [h]

theorem updateSessionLanguage_of_get_none (se : Sessions) (sid lang : String)
    (h : mapGet se sid = none) :
    updateSessionLanguage se sid lang = (se, false) := by
  unfold updateSessionLanguage
  rw [h]

theorem handleCodeUpdate_shape (client : String) (message : WsMessage)
    (now : Int) (st : GatewayState) :
    ((handleCodeUpdate client message now st).1.userSessions = st.userSessions) ∧
    ((handleCodeUpdate client message now st).1.socketUsers = st.socketUsers) ∧
    ((handleCodeUpdate client message now st).1.cursorUpdateThrottle
      = st.cursorUpdateThrottle) ∧
    ((handleCodeUpdate client message now st).1.languageChangeThrottle
      = st.languageChangeThrottle) ∧
    ((handleCodeUpdate client message now st).1.rooms = st.rooms) := by
  unfold handleCodeUpdate
  cases truthy (mapGet st.userSessions client) <;>
    cases truthy (mapGet st.socketUsers client) <;>
    dsimp only <;>
    try exact ⟨rfl, rfl, rfl, rfl, rfl⟩
  split
  · exact ⟨rfl, rfl, rfl, rfl, rfl⟩
  · split
    · exact ⟨rfl, rfl, rfl, rfl, rfl⟩
    · split
      · exact ⟨rfl, rfl, rfl, rfl, rfl⟩
      · exact ⟨rfl, rfl, rfl, rfl, rfl⟩

theorem handleCodeUpdate_versions_step (client : String) (message : WsMessage)
    (now : Int) (st : GatewayState) (sid : String) (cv : Int)
    (hcv : 0 ≤ cv)
    (h : Option.map SessionData.codeVersion (mapGet st.sessions sid) = some cv) :
    (codeUpdateVersionsFor sid (handleCodeUpdate client message now st).2 = [] ∧
      Option.map SessionData.codeVersion
        (mapGet (handleCodeUpdate client message now st).1.sessions sid)
        = some cv) ∨
    (codeUpdateVersionsFor sid (handleCodeUpdate client message now st).2
        = [cv + 1] ∧
      Option.map SessionData.codeVersion
        (mapGet (handleCodeUpdate client message now st).1.sessions sid)
        = some (cv + 1)) := by
  obtain ⟨sd, hsd, hsdcv⟩ :
      ∃ sd, mapGet st.sessions sid = some sd ∧ sd.codeVersion = cv := by
    cases hm : mapGet st.sessions sid with
    | none => rw [hm] at h; simp at h
    | some sd =>
      rw [hm] at h
      exact ⟨sd, rfl, by simpa using h⟩
  unfold handleCodeUpdate
  cases truthy (mapGet st.userSessions client) with
  | none =>
    cases truthy (mapGet st.socketUsers client) <;> exact Or.inl ⟨rfl, h⟩
  | some sid0 =>
    cases truthy (mapGet st.socketUsers client) with
    | none => exact Or.inl ⟨rfl, h⟩
    | some uid =>
      dsimp only
      split
      · exact Or.inl ⟨rfl, h⟩
      · split
        · exact Or.inl ⟨rfl, h⟩
        · by_cases hss : sid0 = sid
          · subst hss
            rw [incrementCodeVersion_of_get_some _ _ _ hsd]
            dsimp only
            rw [if_neg (by omega)]
            refine Or.inr ⟨?_, ?_⟩
            · simp [codeUpdateVersionsFor, hsdcv]
            · rw [mapGet_updateUserLastSeen_codeVersion, mapGet_mapSet_self]
              simp [hsdcv]
          · cases hm0 : mapGet st.sessions sid0 with
            | none =>
              rw [incrementCodeVersion_of_get_none _ _ hm0]
              dsimp only
              rw [if_pos rfl]
              exact Or.inl ⟨rfl, h⟩
            | some sd0 =>
              rw [incrementCodeVersion_of_get_some _ _ _ hm0]
              dsimp only
              by_cases hv : sd0.codeVersion + 1 = -1
              · rw [if_pos hv]
                refine Or.inl ⟨rfl, ?_⟩
                rw [mapGet_mapSet_ne _ _ _ _ (fun he => hss he.symm)]
                exact h
              · rw [if_neg hv]
                refine Or.inl ⟨?_, ?_⟩
                · simp [codeUpdateVersionsFor, hss]
                · rw [mapGet_updateUserLastSeen_codeVersion,
                    mapGet_mapSet_ne _ _ _ _ (fun he => hss he.symm)]
                  exact h

theorem codeUpdateVersionsFor_append (sid : String) (a b : List Emission) :
    codeUpdateVersionsFor sid (a ++ b) =
      codeUpdateVersionsFor sid a ++ codeUpdateVersionsFor sid b := by
  simp [codeUpdateVersionsFor]

theorem consecutiveFrom_succ (c : Int) (k : Nat) :
    consecutiveFrom c (k + 1) = (c + 1) :: consecutiveFrom (c + 1) k := rfl

theorem runCodeUpdates_versions (evts : List (String × WsMessage × Int)) :
    ∀ (st : GatewayState) (sid : String) (cv : Int), 0 ≤ cv →
    Option.map SessionData.codeVersion (mapGet st.sessions sid) = some cv →
    (Option.map SessionData.codeVersion
        (mapGet (runCodeUpdates evts st).1.sessions sid)
      = some (cv +
          ((codeUpdateVersionsFor sid (runCodeUpdates evts st).2).length : Int))) ∧
    codeUpdateVersionsFor sid (runCodeUpdates evts st).2 =
      consecutiveFrom cv
        (codeUpdateVersionsFor sid (runCodeUpdates evts st).2).length := by
  induction evts with
  | nil =>
    intro st sid cv hcv h
    refine ⟨?_, rfl⟩
    simpa [runCodeUpdates, codeUpdateVersionsFor] using h
  | cons e rest ih =>
    obtain ⟨client, message, now⟩ := e
    intro st sid cv hcv h
    have hstep := handleCodeUpdate_versions_step client message now st sid cv hcv h
    simp only [runCodeUpdates]
    rcases hstep with ⟨hv1, hs1⟩ | ⟨hv1, hs1⟩
    · have hrest := ih (handleCodeUpdate client message now st).1 sid cv hcv hs1
      rw [codeUpdateVersionsFor_append, hv1, List.nil_append]
      exact hrest
    · obtain ⟨hrest1, hrest2⟩ := ih (handleCodeUpdate client message now st).1
        sid (cv + 1) (by omega) hs1
      rw [codeUpdateVersionsFor_append, hv1]
      constructor
      · rw [hrest1]
        congr 1
        simp only [List.length_append, List.length_singleton]
        push_cast
        ring
      · rw [List.singleton_append, List.length_cons, consecutiveFrom_succ]
        exact congrArg (List.cons (cv + 1)) hrest2

theorem codeUpdateBroadcastCount_append (a b : List Emission) :
    codeUpdateBroadcastCount (a ++ b) =
      codeUpdateBroadcastCount a + codeUpdateBroadcastCount b := by
  simp [codeUpdateBroadcastCount]

theorem throttleOK_congr (st st' : GatewayState) (uid : String) (T : Int)
    (j : Nat) (h : st'.codeUpdateThrottle = st.codeUpdateThrottle)
    (hok : throttleOK st uid T j) : throttleOK st' uid T j := by
  unfold throttleOK at hok ⊢
  rw [h]
  exact hok

theorem handleCodeUpdate_throttle_step (client : String) (message : WsMessage)
    (now : Int) (st : GatewayState) (sid uid : String)
    (hts : truthy (mapGet st.userSessions client) = some sid)
    (htu : truthy (mapGet st.socketUsers client) = some uid) :
    (codeUpdateBroadcastCount (handleCodeUpdate client message now st).2 = 0 ∧
      (handleCodeUpdate client message now st).1.codeUpdateThrottle
        = st.codeUpdateThrottle) ∨
    (codeUpdateBroadcastCount (handleCodeUpdate client message now st).2 ≤ 1 ∧
      mapGet (handleCodeUpdate client message now st).1.codeUpdateThrottle uid
        = some now ∧
      20 ≤ now - (mapGet st.codeUpdateThrottle uid).getD 0) := by
  unfold handleCodeUpdate
  rw [hts, htu]
  dsimp only
  split
  · exact Or.inl ⟨rfl, rfl⟩
  · split
    · exact Or.inl ⟨rfl, rfl⟩
    · rename_i hrl
      split
      · exact Or.inr ⟨by norm_num [codeUpdateBroadcastCount],
          mapGet_mapSet_self _ _ _, by omega⟩
      · exact Or.inr ⟨by norm_num [codeUpdateBroadcastCount],
          mapGet_mapSet_self _ _ _, by omega⟩

theorem runCodeUpdates_throttle_bound (msgs : List (WsMessage × Int)) :
    ∀ (st : GatewayState) (client sid uid : String) (T : Int) (j : Nat),
    truthy (mapGet st.userSessions client) = some sid →
    truthy (mapGet st.socketUsers client) = some uid →
    (∀ p ∈ msgs, T ≤ p.2 ∧ p.2 < T + 1000) →
    throttleOK st uid T j →
    throttleOK (runCodeUpdates (msgs.map (fun p => (client, p.1, p.2))) st).1
      uid T
      (j + codeUpdateBroadcastCount
        (runCodeUpdates (msgs.map (fun p => (client, p.1, p.2))) st).2) := by
  induction msgs with
  | nil =>
    intro st client sid uid T j hts htu htimes hok
    simpa [runCodeUpdates, codeUpdateBroadcastCount] using hok
  | cons p rest ih =>
    obtain ⟨message, now⟩ := p
    intro st client sid uid T j hts htu htimes hok
    have htime := htimes (message, now) (List.mem_cons_self _ _)
    have hstep := handleCodeUpdate_throttle_step client message now st sid uid
      hts htu
    have hshape := handleCodeUpdate_shape client message now st
    have hts' : truthy
        (mapGet (handleCodeUpdate client message now st).1.userSessions client)
        = some sid := by rw [hshape.1]; exact hts
    have htu' : truthy
        (mapGet (handleCodeUpdate client message now st).1.socketUsers client)
        = some uid := by rw [hshape.2.1]; exact htu
    have htimes' : ∀ p ∈ rest, T ≤ p.2 ∧ p.2 < T + 1000 :=
      fun p hp => htimes p (List.mem_cons_of_mem _ hp)
    simp only [List.map_cons, runCodeUpdates]
    rcases hstep with ⟨hc1, hthr⟩ | ⟨hc1, hthr, hgap⟩
    · rw [codeUpdateBroadcastCount_append, hc1, Nat.zero_add]
      exact ih (handleCodeUpdate client message now st).1 client sid uid T j
        hts' htu' htimes'
        (throttleOK_congr st _ uid T j hthr hok)
    · rw [codeUpdateBroadcastCount_append, ← Nat.add_assoc]
      refine ih (handleCodeUpdate client message now st).1 client sid uid T _
        hts' htu' htimes' ?_
      have hnow : T + 20 * ((j : Int) +
          (codeUpdateBroadcastCount (handleCodeUpdate client message now st).2
            : Int) - 1) ≤ now := by
        rcases hok with hj0 | ⟨t0, ht0, hlb, hub⟩
        · subst hj0
          have : (codeUpdateBroadcastCount
              (handleCodeUpdate client message now st).2 : Int) ≤ 1 := by
            exact_mod_cast hc1
          omega
        · rw [ht0] at hgap
          simp only [Option.getD_some] at hgap
          have : (codeUpdateBroadcastCount
              (handleCodeUpdate client message now st).2 : Int) ≤ 1 := by
            exact_mod_cast hc1
          omega
      refine Or.inr ⟨now, hthr, ?_, htime.2⟩
      push_cast
      push_cast at hnow
      omega

theorem runCodeUpdates_count_le_50 (msgs : List (WsMessage × Int))
    (st : GatewayState) (client sid uid : String) (T : Int)
    (hts : truthy (mapGet st.userSessions client) = some sid)
    (htu : truthy (mapGet st.socketUsers client) = some uid)
    (htimes : ∀ p ∈ msgs, T ≤ p.2 ∧ p.2 < T + 1000) :
    codeUpdateBroadcastCount
      (runCodeUpdates (msgs.map (fun p => (client, p.1, p.2))) st).2 ≤ 50 := by
  have h := runCodeUpdates_throttle_bound msgs st client sid uid T 0
    hts htu htimes (Or.inl rfl)
  rcases h with h0 | ⟨t, _, hlb, hub⟩
  · omega
  · have : (20 : Int) * ((0 + codeUpdateBroadcastCount
        (runCodeUpdates (msgs.map (fun p => (client, p.1, p.2))) st).2 : Nat)
          - 1) < 1000 := by omega
    omega

theorem handleCodeUpdate_drop_within_20ms (client : String)
    (msg1 msg2 : WsMessage) (t1 t2 : Int) (st : GatewayState) (sid uid : String)
    (hts : truthy (mapGet st.userSessions client) = some sid)
    (htu : truthy (mapGet st.socketUsers client) = some uid)
    (hm2 : msg2.sessionId = sid)
    (hacc : codeUpdateBroadcastCount (handleCodeUpdate client msg1 t1 st).2 = 1)
    (hlt : t2 - t1 < 20) :
    handleCodeUpdate client msg2 t2 (handleCodeUpdate client msg1 t1 st).1 =
      ((handleCodeUpdate client msg1 t1 st).1, []) := by
  have hstep := handleCodeUpdate_throttle_step client msg1 t1 st sid uid hts htu
  have hshape := handleCodeUpdate_shape client msg1 t1 st
  rcases hstep with ⟨hc0, _⟩ | ⟨_, hthr, _⟩
  · rw [hc0] at hacc
    exact absurd hacc (by omega)
  · conv_lhs => rw [handleCodeUpdate]
    rw [hshape.1, hshape.2.1, hts, htu]
    dsimp only
    rw [if_neg (not_ne_iff.mpr hm2.symm), hthr]
    simp only [Option.getD_some]
    rw [if_pos (by omega)]

theorem handleCodeUpdate_toRoomExcept_mem (client : String)
    (message : WsMessage) (now : Int) (st : GatewayState)
    (room sender ev : String) (payload : OutPayload)
    (hmem : Emission.toRoomExcept room sender ev payload
      ∈ (handleCodeUpdate client message now st).2) :
    sender = client ∧ ev = "code-update" ∧
      truthy (mapGet st.userSessions client) = some room := by
  unfold handleCodeUpdate at hmem
  cases hts : truthy (mapGet st.userSessions client) with
  | none =>
    rw [hts] at hmem
    cases htu : truthy (mapGet st.socketUsers client) <;>
      rw [htu] at hmem <;> simp at hmem
  | some sid =>
    rw [hts] at hmem
    cases htu : truthy (mapGet st.socketUsers client) with
    | none => rw [htu] at hmem; simp at hmem
    | some uid =>
      rw [htu] at hmem
      dsimp only at hmem
      split at hmem
      · simp at hmem
      · split at hmem
        · simp at hmem
        · split at hmem
          · simp at hmem
          · simp only [List.mem_singleton, Emission.toRoomExcept.injEq] at hmem
            obtain ⟨h1, h2, h3, _⟩ := hmem
            exact ⟨h2, h3, by rw [h1]⟩

theorem handleLanguageChange_toRoom_mem (client : String)
    (message : WsMessage) (now : Int) (st : GatewayState)
    (room ev : String) (payload : OutPayload)
    (hmem : Emission.toRoom room ev payload
      ∈ (handleLanguageChange client message now st).2) :
    ev = "language-changed" ∧
      truthy (mapGet st.userSessions client) = some room := by
  unfold handleLanguageChange at hmem
  cases hts : truthy (mapGet st.userSessions client) with
  | none =>
    rw [hts] at hmem
    cases htu : truthy (mapGet st.socketUsers client) <;>
      rw [htu] at hmem <;> simp at hmem
  | some sid =>
    rw [hts] at hmem
    cases htu : truthy (mapGet st.socketUsers client) with
    | none => rw [htu] at hmem; simp at hmem
    | some uid =>
      rw [htu] at hmem
      dsimp only at hmem
      split at hmem
      · simp at hmem
      · split at hmem
        · simp at hmem
        · split at hmem
          · simp at hmem
          · split at hmem
            · simp at hmem
            · simp only [List.mem_singleton, Emission.toRoom.injEq] at hmem
              obtain ⟨h1, h2, _⟩ := hmem
              exact ⟨h2, by rw [h1]⟩

theorem handleLanguageChange_shape (client : String) (message : WsMessage)
    (now : Int) (st : GatewayState) :
    ((handleLanguageChange client message now st).1.userSessions
      = st.userSessions) ∧
    ((handleLanguageChange client message now st).1.socketUsers
      = st.socketUsers) := by
  unfold handleLanguageChange
  cases truthy (mapGet st.userSessions client) <;>
    cases truthy (mapGet st.socketUsers client) <;>
    dsimp only <;>
    try exact ⟨rfl, rfl⟩
  split
  · exact ⟨rfl, rfl⟩
  · split
    · exact ⟨rfl, rfl⟩
    · split
      · exact ⟨rfl, rfl⟩
      · split
        · exact ⟨rfl, rfl⟩
        · exact ⟨rfl, rfl⟩

theorem listIncludes_correct (pat s : List Char) :
    listIncludes pat s = true ↔ pat <:+: s := by
  induction s with
  | nil =>
    simp [listIncludes, List.isPrefixOf_iff_prefix, List.prefix_nil,
      List.infix_nil]
  | cons c cs ih =>
    simp [listIncludes, List.isPrefixOf_iff_prefix, ih, List.infix_cons_iff]

theorem handleLanguageChange_invalid (client : String) (message : WsMessage)
    (now : Int) (st : GatewayState) (sid uid : String)
    (hts : truthy (mapGet st.userSessions client) = some sid)
    (htu : truthy (mapGet st.socketUsers client) = some uid)
    (hm : message.sessionId = sid)
    (hlang : message.langPayload ∉ languageValues) :
    handleLanguageChange client message now st =
      (st, [.toClient client "error"
        (.errorP .invalidLanguage "Unsupported language")]) := by
  unfold handleLanguageChange
  rw [hts, htu]
  dsimp only
  rw [if_neg (not_ne_iff.mpr hm.symm), if_pos hlang]

theorem handleLanguageChange_rate_limited (client : String)
    (message : WsMessage) (now : Int) (st : GatewayState) (sid uid : String)
    (hts : truthy (mapGet st.userSessions client) = some sid)
    (htu : truthy (mapGet st.socketUsers client) = some uid)
    (hm : message.sessionId = sid)
    (hlang : message.langPayload ∈ languageValues)
    (hrl : now - (mapGet st.languageChangeThrottle uid).getD 0 < 5000) :
    handleLanguageChange client message now st =
      (st, [.toClient client "error"
        (.errorP .rateLimitExceeded
          "Language changes are limited to 1 per 5 seconds")]) := by
  unfold handleLanguageChange
  rw [hts, htu]
  dsimp only
  rw [if_neg (not_ne_iff.mpr hm.symm), if_neg (not_not_intro hlang),
    if_pos hrl]

theorem handleLanguageChange_accepted (client : String) (message : WsMessage)
    (now : Int) (st : GatewayState) (sid uid : String) (sd : SessionData)
    (hts : truthy (mapGet st.userSessions client) = some sid)
    (htu : truthy (mapGet st.socketUsers client) = some uid)
    (hm : message.sessionId = sid)
    (hlang : message.langPayload ∈ languageValues)
    (hsd : mapGet st.sessions sid = some sd)
    (hrl : 5000 ≤ now - (mapGet st.languageChangeThrottle uid).getD 0) :
    handleLanguageChange client message now st =
      ({ st with
          languageChangeThrottle := mapSet st.languageChangeThrottle uid now,
          sessions := updateUserLastSeen
            (mapSet st.sessions sid { sd with language := message.langPayload })
            sid uid now },
        [.toRoom sid "language-changed" (.langP message.langPayload)]) := by
  unfold handleLanguageChange
  rw [hts, htu]
  dsimp only
  rw [if_neg (not_ne_iff.mpr hm.symm), if_neg (not_not_intro hlang),
    if_neg (by omega), updateSessionLanguage_of_get_some _ _ _ _ hsd]
  dsimp only
  rw [if_neg (by simp)]

theorem handleLanguageChange_second_rejected (client : String)
    (msg1 msg2 : WsMessage) (now1 now2 : Int) (st : GatewayState)
    (sid uid : String) (sd : SessionData)
    (hts : truthy (mapGet st.userSessions client) = some sid)
    (htu : truthy (mapGet st.socketUsers client) = some uid)
    (hm1 : msg1.sessionId = sid) (hm2 : msg2.sessionId = sid)
    (hl1 : msg1.langPayload ∈ languageValues)
    (hl2 : msg2.langPayload ∈ languageValues)
    (hsd : mapGet st.sessions sid = some sd)
    (hrl1 : 5000 ≤ now1 - (mapGet st.languageChangeThrottle uid).getD 0)
    (hlt : now2 - now1 < 5000) :
    (handleLanguageChange client msg1 now1 st).2 =
      [.toRoom sid "language-changed" (.langP msg1.langPayload)] ∧
    Option.map SessionData.language
        (mapGet (handleLanguageChange client msg1 now1 st).1.sessions sid)
      = some msg1.langPayload ∧
    handleLanguageChange client msg2 now2
        (handleLanguageChange client msg1 now1 st).1
      = ((handleLanguageChange client msg1 now1 st).1,
        [.toClient client "error"
          (.errorP .rateLimitExceeded
            "Language changes are limited to 1 per 5 seconds")]) := by
  have hr1 := handleLanguageChange_accepted client msg1 now1 st sid uid sd
    hts htu hm1 hl1 hsd hrl1
  refine ⟨by rw [hr1], ?_, ?_⟩
  · rw [hr1]
    dsimp only
    rw [mapGet_updateUserLastSeen_language, mapGet_mapSet_self]
    rfl
  · rw [hr1]
    dsimp only
    refine handleLanguageChange_rate_limited client msg2 now2 _ sid uid
      ?_ ?_ hm2 hl2 ?_
    · exact hts
    · exact htu
    · dsimp only
      rw [mapGet_mapSet_self]
      simp only [Option.getD_some]
      omega

/-- C1: in a single session the server-assigned `version` numbers carried
by `code-update` broadcasts form the sequence `1, 2, 3, ...` — strictly
increasing by exactly 1 with no gaps (`consecutiveFrom 0 k = [1, ..., k]`)
— for every sequence of inbound edit events from any senders and with any
client-claimed version numbers; and `createSession` starts the registry's
`codeVersion` counter at 0. -/
theorem c1_edit_versions_consecutive
    (evts : List (String × WsMessage × Int)) (st : GatewayState)
    (sid : String)
    (h : Option.map SessionData.codeVersion (mapGet st.sessions sid)
      = some 0) :
    codeUpdateVersionsFor sid (runCodeUpdates evts st).2 =
      consecutiveFrom 0
        (codeUpdateVersionsFor sid (runCodeUpdates evts st).2).length ∧
    (∀ (se : Sessions) (sid' : String) (now : Int) (lang : String),
      Option.map SessionData.codeVersion
        (mapGet (createSession se sid' now lang).1 sid') = some 0) := by
  constructor
  · exact (runCodeUpdates_versions evts st sid 0 le_rfl h).2
  · intro se sid' now lang
    unfold createSession
    rw [mapGet_mapSet_self]
    rfl

/-- Witness for C1: from the concrete two-socket state (session `s1` at
version 0), three edits from `c1` at times 100000, 100100, 100200 — each
claiming version 99 — broadcast exactly the versions `[1, 2, 3]`. -/
theorem c1_edit_versions_consecutive_witness :
    (Option.map SessionData.codeVersion (mapGet exampleState.sessions "s1")
      = some 0) ∧
    codeUpdateVersionsFor "s1"
      (runCodeUpdates [("c1", exampleMsg, 100000), ("c1", exampleMsg, 100100),
        ("c1", exampleMsg, 100200)] exampleState).2 =
      consecutiveFrom 0
        (codeUpdateVersionsFor "s1"
          (runCodeUpdates [("c1", exampleMsg, 100000),
            ("c1", exampleMsg, 100100),
            ("c1", exampleMsg, 100200)] exampleState).2).length ∧
    codeUpdateVersionsFor "s1"
      (runCodeUpdates [("c1", exampleMsg, 100000), ("c1", exampleMsg, 100100),
        ("c1", exampleMsg, 100200)] exampleState).2 = [1, 2, 3] :=
  ⟨by decide,
   (c1_edit_versions_consecutive
     [("c1", exampleMsg, 100000), ("c1", exampleMsg, 100100),
       ("c1", exampleMsg, 100200)] exampleState "s1" (by decide)).1,
   by decide⟩

/-- C3 counterexample: a connection bound to session `s1` sending an edit
whose envelope claims session `s2` receives a private error frame with
code `INVALID_SESSION` ("Session ID mismatch"), not `USER_NOT_IN_SESSION`
as the claim states; the state (and hence the version counter) is
unchanged and nothing is broadcast. -/
theorem c3_session_mismatch_counterexample :
    (handleCodeUpdate "c1" mismatchMsg 100000 exampleState).2 =
      [.toClient "c1" "error"
        (.errorP .invalidSession "Session ID mismatch")] ∧
    ErrorCode.invalidSession ≠ ErrorCode.userNotInSession ∧
    (handleCodeUpdate "c1" mismatchMsg 100000 exampleState).1
      = exampleState := by
  refine ⟨by decide, by decide, by decide⟩

/-- C3 (amended): an edit whose envelope session id differs from the
bound session draws a private `INVALID_SESSION` error frame, leaves the
state (so also the version counter) unchanged and broadcasts nothing; a
cursor event failing the same check is dropped silently with no error
frame and no broadcast. -/
theorem c3_session_mismatch_amended (client : String) (message : WsMessage)
    (now : Int) (st : GatewayState) (sid uid : String)
    (hts : truthy (mapGet st.userSessions client) = some sid)
    (htu : truthy (mapGet st.socketUsers client) = some uid)
    (hne : message.sessionId ≠ sid) :
    handleCodeUpdate client message now st =
      (st, [.toClient client "error"
        (.errorP .invalidSession "Session ID mismatch")]) ∧
    handleCursorUpdate client message now st = (st, []) := by
  constructor
  · unfold handleCodeUpdate
    rw [hts, htu]
    dsimp only
    rw [if_pos (fun he => hne he.symm)]
  · unfold handleCursorUpdate
    rw [hts, htu]
    dsimp only
    rw [if_pos (fun he => hne he.symm)]

/-- Witness for C3's amended theorem at the concrete mismatching
envelope. -/
theorem c3_session_mismatch_amended_witness :
    truthy (mapGet exampleState.userSessions "c1") = some "s1" ∧
    mismatchMsg.sessionId ≠ "s1" ∧
    handleCodeUpdate "c1" mismatchMsg 100000 exampleState =
      (exampleState, [.toClient "c1" "error"
        (.errorP .invalidSession "Session ID mismatch")]) ∧
    handleCursorUpdate "c1" mismatchMsg 100000 exampleState
      = (exampleState, []) := by
  have h := c3_session_mismatch_amended "c1" mismatchMsg 100000 exampleState
    "s1" "u1" (by decide) (by decide) (by decide)
  exact ⟨by decide, by decide, h.1, h.2⟩

/-- C4: a connection attempt with a missing (or empty) `sessionId`,
`userId` or `userName` handshake field, or naming a session absent from
the registry, is closed immediately with no emission of any kind — no
`user-joined`, no presence snapshot — and the gateway state (including
the session registry, so no Presence record) is returned unchanged. -/
theorem c4_admission_failure_silent (client : String)
    (sessionId? userId? userName? : Option String) (now : Int)
    (st : GatewayState)
    (h : truthy sessionId? = none ∨ truthy userId? = none ∨
         truthy userName? = none ∨
         (∀ sid, truthy sessionId? = some sid →
           mapGet st.sessions sid = none)) :
    handleConnection client sessionId? userId? userName? now st
      = (st, [], true) := by
  unfold handleConnection
  cases hts : truthy sessionId? with
  | none => cases truthy userId? <;> cases truthy userName? <;> rfl
  | some sid =>
    cases htu : truthy userId? with
    | none => cases truthy userName? <;> rfl
    | some uid =>
      cases htn : truthy userName? with
      | none => rfl
      | some nm =>
        dsimp only
        rcases h with h | h | h | h
        · rw [hts] at h; simp at h
        · rw [htu] at h; simp at h
        · rw [htn] at h; simp at h
        · have hg : getSession st.sessions sid = none := by
            unfold getSession
            rw [h sid hts]
            rfl
          rw [hg]

/-- Witness for C4: missing `userName` and an unknown session id both
close the concrete connection silently with the state unchanged. -/
theorem c4_admission_failure_silent_witness :
    handleConnection "c9" (some "s1") (some "u9") none 100000 exampleState
      = (exampleState, [], true) ∧
    handleConnection "c9" (some "nope") (some "u9") (some "Niamh") 100000
      exampleState = (exampleState, [], true) :=
  ⟨c4_admission_failure_silent "c9" (some "s1") (some "u9") none 100000
      exampleState (Or.inr (Or.inr (Or.inl (by decide)))),
   c4_admission_failure_silent "c9" (some "nope") (some "u9") (some "Niamh")
      100000 exampleState
      (Or.inr (Or.inr (Or.inr (fun sid hsid => by
        have : sid = "nope" := by
          have := hsid
          simp [truthy] at this
          exact this.symm
        subst this
        decide))))⟩

/-- C8: a background-sweep tick (`cleanupInactiveSessions`) deletes a
session exactly when its age strictly exceeds the 30-minute
`SESSION_TIMEOUT` and its `users` map is empty (participant count zero):
afterwards a lookup returns `none` for exactly those sessions and the
stored record unchanged for every other session — retained regardless of
age while participants remain, and regardless of participants while not
past the timeout. -/
theorem c8_cleanup_retention (sessions : Sessions) (now : Int) (sid : String)
    (hnd : (sessions.map Prod.fst).Nodup) :
    mapGet (cleanupInactiveSessions sessions now) sid =
      (mapGet sessions sid).bind (fun sd =>
        if now - sd.createdAt > SESSION_TIMEOUT ∧ sd.users.length = 0
        then none else some sd) :=
  mapGet_cleanup sessions now sid hnd

/-- Witness for C8 on a concrete three-session registry at time
10000000 (past the 1800000ms timeout for the first two): the old empty
session is deleted, the equally old session with a participant is
retained, and a fresh empty session is retained. -/
theorem c8_cleanup_retention_witness :
    mapGet (cleanupInactiveSessions exampleRegistry 10000000) "old-empty"
      = (mapGet exampleRegistry "old-empty").bind (fun sd =>
          if 10000000 - sd.createdAt > SESSION_TIMEOUT ∧ sd.users.length = 0
          then none else some sd) ∧
    mapGet (cleanupInactiveSessions exampleRegistry 10000000) "old-empty"
      = none ∧
    (mapGet (cleanupInactiveSessions exampleRegistry 10000000)
        "old-busy").isSome ∧
    (mapGet (cleanupInactiveSessions exampleRegistry 10000000)
        "new-empty").isSome :=
  ⟨c8_cleanup_retention exampleRegistry 10000000 "old-empty" (by decide),
   by decide, by decide, by decide⟩

/-- C9: the claim is right about the intended design but the code never
schedules any reconnect.  The `useWebSocket` hook creates the socket with
`reconnection: false`, its `disconnect` handler only clears
`isConnected`, no handler ever arms `reconnectTimeoutRef`, and the
constants `RECONNECTION_ATTEMPTS = 5` / `RECONNECTION_DELAY = 1000` are
imported but unused — only the reset of the attempt counter on successful
connection exists.  After an unexpected disconnect the failing input
below leaves the hook with no pending reconnect timer. -/
theorem c9_no_reconnect_scheduled :
    (∀ (s : ClientState) (e : SocketEvent),
      (clientStep s e).reconnectTimer = s.reconnectTimer) ∧
    (∀ (s : ClientState) (reason : String),
      clientStep s (.disconnectEvt reason) = { s with isConnected := false }) ∧
    clientRun initialClientState
        [.connectOk, .disconnectEvt "transport close"] =
      { isConnected := false, connectionError := none,
        reconnectAttempts := 0, reconnectTimer := none } ∧
    (∀ (s : ClientState), (clientStep s .connectOk).reconnectAttempts = 0) ∧
    RECONNECTION_ATTEMPTS = 5 ∧ RECONNECTION_DELAY = 1000 := by
  refine ⟨?_, ?_, by decide, ?_, rfl, rfl⟩
  · intro s e
    cases e <;> rfl
  · intro s reason
    rfl
  · intro s
    rfl

/-- C10: the invariant `participantCount = users.size` is preserved by
every `SessionsService` operation, and consequently every `Session`
value returned by `getSession` or `listSessions` reports the true
number of current participants. -/
theorem c10_participant_count_invariant (se : Sessions)
    (hinv : countInvariant se) :
    (∀ (sid : String) (now : Int) (lang : String),
      countInvariant (createSession se sid now lang).1) ∧
    (∀ (sid uid uname sock : String) (now : Int),
      countInvariant (addUserToSession se sid uid uname sock now).1) ∧
    (∀ (sid uid : String),
      countInvariant (removeUserFromSession se sid uid).1) ∧
    (∀ (sid lang : String),
      countInvariant (updateSessionLanguage se sid lang).1) ∧
    (∀ (sid : String), countInvariant (incrementCodeVersion se sid).1) ∧
    (∀ (sid uid : String) (now : Int),
      countInvariant (updateUserLastSeen se sid uid now)) ∧
    (∀ (sid : String) (sess : Session), getSession se sid = some sess →
      ∃ sd, mapGet se sid = some sd ∧
        sess.participantCount = sd.users.length) ∧
    (∀ (limit offset : Nat) (sess : Session),
      sess ∈ (listSessions se limit offset).sessions →
      ∃ p ∈ se, sess = toSessionResponse p.2 ∧
        sess.participantCount = p.2.users.length) := by
  refine ⟨fun sid now lang => countInvariant_createSession se sid now lang hinv,
    fun sid uid uname sock now =>
      countInvariant_addUserToSession se sid uid uname sock now hinv,
    fun sid uid => countInvariant_removeUserFromSession se sid uid hinv,
    fun sid lang => countInvariant_updateSessionLanguage se sid lang hinv,
    fun sid => countInvariant_incrementCodeVersion se sid hinv,
    fun sid uid now => countInvariant_updateUserLastSeen se sid uid now hinv,
    ?_, ?_⟩
  · intro sid sess hget
    unfold getSession at hget
    cases hm : mapGet se sid with
    | none => rw [hm] at hget; simp at hget
    | some sd =>
      rw [hm] at hget
      refine ⟨sd, rfl, ?_⟩
      have hcnt := hinv (sid, sd) (mapGet_mem se sid sd hm)
      have : sess = toSessionResponse sd := by simpa using hget.symm
      rw [this]
      exact hcnt
  · intro limit offset sess hmem
    unfold listSessions at hmem
    dsimp only at hmem
    have hmem' : sess ∈ se.map (fun p => toSessionResponse p.2) :=
      List.drop_subset _ _ (List.take_subset _ _ hmem)
    rcases List.mem_map.mp hmem' with ⟨p, hp, hpe⟩
    refine ⟨p, hp, hpe.symm, ?_⟩
    rw [← hpe]
    exact hinv p hp

/-- Witness for C10 at the concrete registry (whose stored counts match
its user maps), adding then removing a third participant. -/
theorem c10_participant_count_invariant_witness :
    countInvariant exampleState.sessions ∧
    countInvariant
      (addUserToSession exampleState.sessions "s1" "u3" "Origbo" "c3"
        5).1 ∧
    countInvariant (removeUserFromSession exampleState.sessions "s1" "u1").1 ∧
    countInvariant (incrementCodeVersion exampleState.sessions "s1").1 := by
  have h := c10_participant_count_invariant exampleState.sessions (by unfold countInvariant; decide)
  exact ⟨by unfold countInvariant; decide, h.2.1 "s1" "u3" "Origbo" "c3" 5,
    h.2.2.1 "s1" "u1", h.2.2.2.2.1 "s1"⟩

/-- C2: every room-wide emission the edit handler produces is a
`client.to(room)` broadcast from the sender's own socket on the bound
session's room, whose recipients are exactly the room members other than
the sender's connection; every room-wide emission the language handler
produces is a `server.to(room)` broadcast whose recipients are exactly
the room members, the sender's connection included. -/
theorem c2_broadcast_routing (client : String) (message : WsMessage)
    (now : Int) (st st' : GatewayState) :
    (∀ (room sender ev : String) (payload : OutPayload),
      Emission.toRoomExcept room sender ev payload
        ∈ (handleCodeUpdate client message now st).2 →
      sender = client ∧ ev = "code-update" ∧
      truthy (mapGet st.userSessions client) = some room ∧
      ∀ x, x ∈ recipients st' (.toRoomExcept room sender ev payload) ↔
        (x ∈ roomMembers st' room ∧ x ≠ client)) ∧
    (∀ (room ev : String) (payload : OutPayload),
      Emission.toRoom room ev payload
        ∈ (handleLanguageChange client message now st).2 →
      ev = "language-changed" ∧
      truthy (mapGet st.userSessions client) = some room ∧
      ∀ x, x ∈ recipients st' (.toRoom room ev payload) ↔
        x ∈ roomMembers st' room) := by
  constructor
  · intro room sender ev payload hmem
    obtain ⟨hsender, hev, hbound⟩ :=
      handleCodeUpdate_toRoomExcept_mem client message now st room sender ev
        payload hmem
    subst hsender
    refine ⟨rfl, hev, hbound, ?_⟩
    intro x
    simp [recipients, List.mem_filter]
  · intro room ev payload hmem
    obtain ⟨hev, hbound⟩ :=
      handleLanguageChange_toRoom_mem client message now st room ev payload
        hmem
    exact ⟨hev, hbound, fun x => Iff.rfl⟩

/-- Witness for C2: in the concrete two-socket room, the accepted edit's
broadcast reaches `c2` but not the sender `c1`, while an accepted
language change reaches both `c1` and `c2`. -/
theorem c2_broadcast_routing_witness :
    (Emission.toRoomExcept "s1" "c1" "code-update" (.codeUpdateP "d" 1)
      ∈ (handleCodeUpdate "c1" exampleMsg 100000 exampleState).2) ∧
    "c2" ∈ recipients exampleState
      (.toRoomExcept "s1" "c1" "code-update" (.codeUpdateP "d" 1)) ∧
    "c1" ∉ recipients exampleState
      (.toRoomExcept "s1" "c1" "code-update" (.codeUpdateP "d" 1)) ∧
    (Emission.toRoom "s1" "language-changed" (.langP "python")
      ∈ (handleLanguageChange "c1" exampleMsg 100000 exampleState).2) ∧
    "c1" ∈ recipients exampleState
      (.toRoom "s1" "language-changed" (.langP "python")) ∧
    "c2" ∈ recipients exampleState
      (.toRoom "s1" "language-changed" (.langP "python")) := by
  have h := c2_broadcast_routing "c1" exampleMsg 100000 exampleState
    exampleState
  have h1 := h.1 "s1" "c1" "code-update" (.codeUpdateP "d" 1) (by decide)
  have h2 := h.2 "s1" "language-changed" (.langP "python") (by decide)
  refine ⟨by decide, ?_, ?_, by decide, ?_, ?_⟩
  · exact (h1.2.2.2 "c2").mpr ⟨by decide, by decide⟩
  · intro hc
    exact absurd ((h1.2.2.2 "c1").mp hc).2 (by simp)
  · exact (h2.2.2 "c1").mpr (by decide)
  · exact (h2.2.2 "c2").mpr (by decide)

set_option maxRecDepth 8000 in
/-- C5 counterexample: one user sends 100 edits inside the one-second
window `[100000, 101000)`, every consecutive pair exactly 10ms (< 20ms)
apart, yet exactly 50 — not strictly fewer than 50 — `code-update`
broadcasts are delivered: every edit arriving a full 20ms after the last
accepted one is accepted, so 10ms spacing halves the stream to exactly
50. -/
theorem c5_fifty_edits_counterexample :
    c5Trace.length = 100 ∧ 50 < c5Trace.length ∧
    (∀ p ∈ c5Trace, 100000 ≤ p.2 ∧ p.2 < 101000) ∧
    (∀ i ∈ List.range 99,
      (c5Trace.getD (i + 1) (exampleMsg, 0)).2
        - (c5Trace.getD i (exampleMsg, 0)).2 = 10) ∧
    codeUpdateBroadcastCount
      (runCodeUpdates (c5Trace.map (fun p => ("c1", p.1, p.2)))
        exampleState).2 = 50 ∧
    ¬ (codeUpdateBroadcastCount
        (runCodeUpdates (c5Trace.map (fun p => ("c1", p.1, p.2)))
          exampleState).2 < 50) := by
  refine ⟨by decide, by decide, by decide, by decide, by decide, by decide⟩

/-- C5 (amended): an edit arriving strictly less than 20ms after the same
user's previous accepted edit is dropped silently — no error frame, no
version bump, no broadcast, the state unchanged; and any batch of edits
from one user inside a one-second window yields at most 50 (rather than
strictly fewer than 50) `code-update` broadcasts. -/
theorem c5_edit_rate_limit_amended :
    (∀ (client : String) (msg1 msg2 : WsMessage) (t1 t2 : Int)
       (st : GatewayState) (sid uid : String),
      truthy (mapGet st.userSessions client) = some sid →
      truthy (mapGet st.socketUsers client) = some uid →
      msg2.sessionId = sid →
      codeUpdateBroadcastCount (handleCodeUpdate client msg1 t1 st).2 = 1 →
      t2 - t1 < 20 →
      handleCodeUpdate client msg2 t2 (handleCodeUpdate client msg1 t1 st).1
        = ((handleCodeUpdate client msg1 t1 st).1, [])) ∧
    (∀ (msgs : List (WsMessage × Int)) (st : GatewayState)
       (client sid uid : String) (T : Int),
      truthy (mapGet st.userSessions client) = some sid →
      truthy (mapGet st.socketUsers client) = some uid →
      (∀ p ∈ msgs, T ≤ p.2 ∧ p.2 < T + 1000) →
      codeUpdateBroadcastCount
        (runCodeUpdates (msgs.map (fun p => (client, p.1, p.2))) st).2
          ≤ 50) :=
  ⟨fun client msg1 msg2 t1 t2 st sid uid hts htu hm2 hacc hlt =>
    handleCodeUpdate_drop_within_20ms client msg1 msg2 t1 t2 st sid uid
      hts htu hm2 hacc hlt,
   fun msgs st client sid uid T hts htu htimes =>
    runCodeUpdates_count_le_50 msgs st client sid uid T hts htu htimes⟩

set_option maxRecDepth 8000 in
/-- Witness for C5's amended theorem: the concrete second edit 10ms after
an accepted one is silently dropped, and the concrete 100-edit
one-second burst stays within 50 deliveries. -/
theorem c5_edit_rate_limit_amended_witness :
    codeUpdateBroadcastCount
      (handleCodeUpdate "c1" exampleMsg 100000 exampleState).2 = 1 ∧
    handleCodeUpdate "c1" exampleMsg 100010
        (handleCodeUpdate "c1" exampleMsg 100000 exampleState).1
      = ((handleCodeUpdate "c1" exampleMsg 100000 exampleState).1, []) ∧
    codeUpdateBroadcastCount
      (runCodeUpdates (c5Trace.map (fun p => ("c1", p.1, p.2)))
        exampleState).2 ≤ 50 :=
  ⟨by decide,
   c5_edit_rate_limit_amended.1 "c1" exampleMsg exampleMsg 100000 100010
     exampleState "s1" "u1" (by decide) (by decide) (by decide) (by decide)
     (by decide),
   c5_edit_rate_limit_amended.2 c5Trace exampleState "c1" "s1" "u1" 100000
     (by decide) (by decide) (by decide)⟩

/-- C6: on an admitted connection, a language-change payload outside the
fixed enumerated set draws a private `INVALID_LANGUAGE` error with the
state (hence the session's language) unchanged; a valid change arriving
strictly less than 5 seconds after the same user's previous accepted one
draws a private `RATE_LIMIT_EXCEEDED` error with the state unchanged and
nothing broadcast; and two valid requests within 5 seconds produce
exactly one room-wide `language-changed` broadcast (from the first),
leave the session's language at the first request's value, and send
exactly one `RATE_LIMIT_EXCEEDED` error frame to the second sender. -/
theorem c6_language_change_validation :
    (∀ (client : String) (message : WsMessage) (now : Int)
       (st : GatewayState) (sid uid : String),
      truthy (mapGet st.userSessions client) = some sid →
      truthy (mapGet st.socketUsers client) = some uid →
      message.sessionId = sid →
      message.langPayload ∉ languageValues →
      handleLanguageChange client message now st =
        (st, [.toClient client "error"
          (.errorP .invalidLanguage "Unsupported language")])) ∧
    (∀ (client : String) (message : WsMessage) (now : Int)
       (st : GatewayState) (sid uid : String),
      truthy (mapGet st.userSessions client) = some sid →
      truthy (mapGet st.socketUsers client) = some uid →
      message.sessionId = sid →
      message.langPayload ∈ languageValues →
      now - (mapGet st.languageChangeThrottle uid).getD 0 < 5000 →
      handleLanguageChange client message now st =
        (st, [.toClient client "error"
          (.errorP .rateLimitExceeded
            "Language changes are limited to 1 per 5 seconds")])) ∧
    (∀ (client : String) (msg1 msg2 : WsMessage) (now1 now2 : Int)
       (st : GatewayState) (sid uid : String) (sd : SessionData),
      truthy (mapGet st.userSessions client) = some sid →
      truthy (mapGet st.socketUsers client) = some uid →
      msg1.sessionId = sid → msg2.sessionId = sid →
      msg1.langPayload ∈ languageValues →
      msg2.langPayload ∈ languageValues →
      mapGet st.sessions sid = some sd →
      5000 ≤ now1 - (mapGet st.languageChangeThrottle uid).getD 0 →
      now2 - now1 < 5000 →
      (handleLanguageChange client msg1 now1 st).2 =
        [.toRoom sid "language-changed" (.langP msg1.langPayload)] ∧
      Option.map SessionData.language
          (mapGet (handleLanguageChange client msg1 now1 st).1.sessions sid)
        = some msg1.langPayload ∧
      handleLanguageChange client msg2 now2
          (handleLanguageChange client msg1 now1 st).1
        = ((handleLanguageChange client msg1 now1 st).1,
          [.toClient client "error"
            (.errorP .rateLimitExceeded
              "Language changes are limited to 1 per 5 seconds")])) :=
  ⟨fun client message now st sid uid hts htu hm hlang =>
    handleLanguageChange_invalid client message now st sid uid hts htu hm
      hlang,
   fun client message now st sid uid hts htu hm hlang hrl =>
    handleLanguageChange_rate_limited client message now st sid uid hts htu
      hm hlang hrl,
   fun client msg1 msg2 now1 now2 st sid uid sd hts htu hm1 hm2 hl1 hl2 hsd
       hrl1 hlt =>
    handleLanguageChange_second_rejected client msg1 msg2 now1 now2 st sid
      uid sd hts htu hm1 hm2 hl1 hl2 hsd hrl1 hlt⟩

/-- Witness for C6 at concrete inputs: `cobol` is rejected as
`INVALID_LANGUAGE`; a valid `python` change at time 100000 followed by a
`typescript` change at 103000 produces one broadcast, leaves the session
on `python`, and sends one `RATE_LIMIT_EXCEEDED` error to the second
request. -/
theorem c6_language_change_validation_witness :
    handleLanguageChange "c1" { exampleMsg with langPayload := "cobol" }
        100000 exampleState =
      (exampleState, [.toClient "c1" "error"
        (.errorP .invalidLanguage "Unsupported language")]) ∧
    (handleLanguageChange "c1" exampleMsg 100000 exampleState).2 =
      [.toRoom "s1" "language-changed" (.langP "python")] ∧
    Option.map SessionData.language
        (mapGet (handleLanguageChange "c1" exampleMsg 100000
          exampleState).1.sessions "s1")
      = some "python" ∧
    handleLanguageChange "c1" { exampleMsg with langPayload := "typescript" }
        103000 (handleLanguageChange "c1" exampleMsg 100000 exampleState).1
      = ((handleLanguageChange "c1" exampleMsg 100000 exampleState).1,
        [.toClient "c1" "error"
          (.errorP .rateLimitExceeded
            "Language changes are limited to 1 per 5 seconds")]) := by
  have hinv := c6_language_change_validation.1 "c1"
    { exampleMsg with langPayload := "cobol" } 100000 exampleState "s1" "u1"
    (by decide) (by decide) (by decide) (by decide)
  have h2 := c6_language_change_validation.2.2 "c1" exampleMsg
    { exampleMsg with langPayload := "typescript" } 100000 103000
    exampleState "s1" "u1"
    { id := "s1", createdAt := 0, language := "javascript",
      participantCount := 2,
      users := [("u1",
        { id := "u1", name := "Alice", color := generateUserColor "u1",
          lastSeen := 0, socketId := "c1" }),
        ("u2",
        { id := "u2", name := "Bob", color := generateUserColor "u2",
          lastSeen := 0, socketId := "c2" })],
      codeVersion := 0 } (by decide) (by decide) (by decide)
    (by decide) (by decide) (by decide) (by decide) (by decide) (by decide)
  exact ⟨hinv, h2.1, h2.2.1, h2.2.2⟩

/-- C7: the HTTP limiter's counting algorithm is as described, but the
per-route maxima are not: `RateLimitGuard.limits` declares 20/60s for the
join route, yet `getLimit`'s substring matching can never select that
entry — for every method and path the first pattern (whose `/api`-stripped
text `POST /sessions` is a substring of the join pattern's) matches first,
so `getLimit` never returns the 20/60s limit.  With the `api` global
prefix in the route path (as `main.ts` configures) neither session
pattern matches at all and both the create and the join route fall to the
default 100/60s; even without the prefix the join route would get the
create limit 10/60s. -/
theorem c7_http_limit_join_never_20 :
    (∀ (method path : List Char), getLimit method path ≠ ⟨20, 60000⟩) ∧
    ("POST /api/sessions/:sessionId/join".data,
      (⟨20, 60000⟩ : RateLimitSpec)) ∈ limitEntries ∧
    getLimit "POST".data "/api/sessions/:sessionId/join".data
      = defaultLimit ∧
    getLimit "POST".data "/sessions/:sessionId/join".data = ⟨10, 60000⟩ ∧
    getLimit "POST".data "/api/sessions".data = defaultLimit ∧
    getLimit "POST".data "/sessions".data = ⟨10, 60000⟩ := by
  refine ⟨?_, by decide, by decide, by decide, by decide, by decide⟩
  intro method path
  unfold getLimit limitEntries
  simp only [getLimitLoop]
  split
  · decide
  · rename_i h1
    split
    · rename_i h2
      exfalso
      apply h1
      rw [listIncludes_correct] at h2 ⊢
      exact ((by decide :
        (replaceFirst "/api".data [] "POST /api/sessions".data) <:+:
          (replaceFirst "/api".data []
            "POST /api/sessions/:sessionId/join".data))).trans h2
    · decide
